import Mathlib

set_option autoImplicit false
set_option maxRecDepth 100000

namespace ResumeGen

/-!
Shallow embedding of `resume_generator.py`: the style model (runs, paragraphs,
table cells), the matching engine, the three document builders and the
orchestrator `process_all_jobs`, with theorems about them.
-/

/-- Paragraph alignment values the script uses (`WD_ALIGN_PARAGRAPH`). -/
inductive Align where
  | left
  | center
  deriving DecidableEq, Repr

/-- A styled text run: the text plus the font attributes `set_font` assigns.
`font` and `size` are `none` for runs added without a `set_font` call
(docx defaults). -/
structure Run where
  text : String
  font : Option String
  size : Option Nat
  bold : Bool
  color : Option (Nat × Nat × Nat)
  deriving DecidableEq, Repr

/-- `set_font` from the script: styles a run with font name, point size,
boldness and optional RGB color (the Python mutates a fresh run; here we
construct the run directly). -/
def set_font (text : String) (font : String) (size : Nat) (bold : Bool)
    (color : Option (Nat × Nat × Nat)) : Run :=
  { text := text, font := some font, size := some size, bold := bold, color := color }

/-- A run added by `add_run` with no `set_font` call. -/
def plainRun (text : String) : Run :=
  { text := text, font := none, size := none, bold := false, color := none }

/-- A paragraph: its ordered runs plus optional explicit alignment. -/
structure Para where
  runs : List Run
  alignment : Option Align
  deriving DecidableEq, Repr

/-- A table cell: its runs, alignment, optional background fill
(`set_cell_background_color` hex string) and whether `set_cell_border`
was applied. -/
structure Cell where
  runs : List Run
  alignment : Option Align
  bg : Option String
  border : Bool
  deriving DecidableEq, Repr

/-- `set_cell_style` from the script: one styled run in the cell paragraph,
the given alignment, a border, and optional background shading. -/
def set_cell_style (text : String) (font : String) (size : Nat) (bold : Bool)
    (alignment : Align) (bg : Option String)
    (textColor : Option (Nat × Nat × Nat)) : Cell :=
  { runs := [set_font text font size bold textColor]
    alignment := some alignment
    bg := bg
    border := true }

/-- One entry of `user_info["experience"]`. -/
structure Experience where
  company : String
  title : String
  location : String
  dates : String
  skills : String
  actions : String
  results : String
  deriving DecidableEq, Repr

/-- One entry of `user_info["education"]`. -/
structure Education where
  degree : String
  institution : String
  location : String
  deriving DecidableEq, Repr

/-- The candidate profile (the `user_info` dict). List-valued optional keys
are modelled as plain lists: the script guards each of them with
`key in user_info and user_info[key]`, which treats an absent key and an
empty list identically. `summary` keeps an `Option` because the script tests
only `"summary" in user_info` (presence, not non-emptiness). -/
structure UserInfo where
  name : String
  location : String
  phone : String
  email : String
  linkedin : String
  summary : Option String
  key_achievements : List String
  core_competencies : List String
  experience : List Experience
  education : List Education
  professional_development : List String
  additional_skills : List String
  soft_skills : List String
  deriving DecidableEq, Repr

/-- One entry of `job_descriptions`. -/
structure JobPosting where
  title : String
  company : String
  responsibilities : List String
  deriving DecidableEq, Repr

/-- The selection fold used by the matcher: scan the remaining candidates,
replacing the current best only on a strictly greater score (so the first
maximal candidate is kept, exactly like the maximum over a sequence of
scored candidates in the reference behavior). -/
def selectBest (score : String → String → Nat) (q : String)
    (init : String × Nat) (cs : List String) : String × Nat :=
  cs.foldl (fun best cand =>
    if best.2 < score q cand then (cand, score q cand) else best) init

/-- Modelled from the spec: `fuzzywuzzy.process.extractOne` is a third-party
dependency whose code is not part of this repository. Per the spec it scores
every candidate against the query with a textual-similarity scorer and
returns the candidate with the maximum score together with that score, ties
broken in favor of the first candidate in input order; on an empty candidate
sequence there is no result (the Python call then yields `None`). The
similarity scorer itself is abstracted as the parameter `score`. -/
def extractOne (score : String → String → Nat) (query : String) :
    List String → Option (String × Nat)
  | [] => none
  | c :: cs => some (selectBest score query (c, score query c) cs)

/-- `find_best_match` from the script: it unpacks the `extractOne` pair and
returns the best-matching candidate; `none` models the exception the Python
raises when the pool is empty (`extractOne` returns `None` and unpacking
fails). -/
def find_best_match (score : String → String → Nat) (responsibility : String)
    (experiences : List String) : Option String :=
  (extractOne score responsibility experiences).map Prod.fst

/-- Total variant of `find_best_match` used inside theorem statements; it
agrees with `find_best_match` on every non-empty pool
(`find_best_match_eq_some`). -/
def find_best_matchD (score : String → String → Nat) (q : String)
    (pool : List String) : String :=
  ((extractOne score q pool).map Prod.fst).getD ""

/-- The `all_experiences` pool of `create_intelligent_compatibility_matrix`:
achievements, then each experience's `results` in experience order, then
additional skills. -/
def allExperiences (ui : UserInfo) : List String :=
  ui.key_achievements ++ ui.experience.map (fun exp => exp.results) ++
    ui.additional_skills

/-- Python dict assignment `d[k] = v` on an insertion-ordered dict: if the key
is present its value is updated in place (the key keeps its position),
otherwise the pair is appended. -/
def dictInsert (d : List (String × String)) (k v : String) :
    List (String × String) :=
  if d.any (fun p => p.1 == k) then
    d.map (fun p => if p.1 == k then (k, v) else p)
  else d ++ [(k, v)]

/-- The loop of `create_intelligent_compatibility_matrix`: for each
responsibility, find the best match from the pool and store it under the
responsibility key; `none` models the uncaught exception raised when the
pool is empty. -/
def buildCompatibilityData (score : String → String → Nat) (pool : List String) :
    List String → List (String × String) → Option (List (String × String))
  | [], acc => some acc
  | r :: rs, acc =>
    (find_best_match score r pool).bind
      (fun b => buildCompatibilityData score pool rs (dictInsert acc r b))

/-- The header row of the compatibility table, with its fixed labels,
accent background and white bold text. -/
def headerRow : Cell × Cell :=
  (set_cell_style "JOB RESPONSIBILITIES" "Calibri" 12 true Align.center
      (some "4472C4") (some (255, 255, 255)),
    set_cell_style "DEMONSTRATED RESULTS" "Calibri" 12 true Align.center
      (some "4472C4") (some (255, 255, 255)))

/-- Python `str.split` with a one-character separator, on char lists: split
at every occurrence of the separator, keeping empty segments. -/
def splitSep (sep : Char) : List Char → List (List Char)
  | [] => [[]]
  | c :: rest =>
    match splitSep sep rest with
    | [] => []
    | g :: gs => if c = sep then [] :: g :: gs else (c :: g) :: gs

/-- Python `result.split("\n")`: the lines of a string, empty lines kept. -/
def splitLines (s : String) : List String :=
  (splitSep '\n' s.toList).map (fun g => ⟨g⟩)

/-- Python `str.strip`: drop whitespace from both ends of a string. -/
def strip (s : String) : String :=
  ⟨((s.toList.dropWhile Char.isWhitespace).reverse.dropWhile
      Char.isWhitespace).reverse⟩

/-- The right-hand cell of a data row: the result string split on newline,
one bulleted run per line (every line, stripped of surrounding whitespace),
dark background, border. -/
def resultCell (result : String) : Cell :=
  { runs := (splitLines result).map (fun line =>
      set_font ("• " ++ strip line ++ "\n") "Calibri" 11 false
        (some (255, 255, 255)))
    alignment := some Align.left
    bg := some "2E2E2E"
    border := true }

/-- One data row of the compatibility table. -/
def dataRow (responsibility result : String) : Cell × Cell :=
  (set_cell_style responsibility "Calibri" 11 false Align.left
      (some "1F4E78") (some (255, 255, 255)),
    resultCell result)

/-- A compatibility-matrix document: title paragraph plus two-column table. -/
structure MatrixDoc where
  titlePara : Para
  table : List (Cell × Cell)
  deriving DecidableEq, Repr

/-- `create_compatibility_matrix`: a centered title, the header row, and one
data row per dict entry in dict order. -/
def create_compatibility_matrix (ui : UserInfo) (job : JobPosting)
    (data : List (String × String)) : MatrixDoc :=
  { titlePara :=
      { runs := [set_font ("Compatibility Matrix for " ++ job.title)
          "Calibri" 14 true none]
        alignment := some Align.center }
    table := headerRow :: data.map (fun p => dataRow p.1 p.2) }

/-- `create_intelligent_compatibility_matrix`: build the pool and the dict,
then render the matrix; `none` models the uncaught exception when the pool is
empty and at least one responsibility exists. -/
def create_intelligent_compatibility_matrix (score : String → String → Nat)
    (ui : UserInfo) (job : JobPosting) : Option MatrixDoc :=
  (buildCompatibilityData score (allExperiences ui) job.responsibilities []).map
    (fun data => create_compatibility_matrix ui job data)

/-- `add_paragraph`: one Arial 11pt run, optional bold, default alignment. -/
def add_paragraph (text : String) (bold : Bool) : Para :=
  { runs := [set_font text "Arial" 11 bold none], alignment := none }

/-- The contact line used in the resume header and the cover-letter closing. -/
def contactLine (ui : UserInfo) : String :=
  ui.location ++ " | " ++ ui.phone ++ " | " ++ ui.email ++ " | " ++ ui.linkedin

/-- The resume header paragraph: name (Arial 16 bold) then contact line,
centered. -/
def resumeHeader (ui : UserInfo) : Para :=
  { runs := [set_font (ui.name ++ "\n") "Arial" 16 true none,
      set_font (contactLine ui) "Arial" 11 false none]
    alignment := some Align.center }

/-- Professional-summary section: emitted whenever the `summary` key is
present (the script checks presence only, not emptiness). -/
def summarySection (ui : UserInfo) : List Para :=
  match ui.summary with
  | some s => [add_paragraph "PROFESSIONAL SUMMARY" true, add_paragraph s false]
  | none => []

/-- Key-achievements section: emitted iff the list is non-empty. -/
def achievementsSection (ui : UserInfo) : List Para :=
  if ui.key_achievements.isEmpty then []
  else add_paragraph "KEY ACHIEVEMENTS" true ::
    ui.key_achievements.map (fun a => add_paragraph ("• " ++ a) false)

/-- Core-competencies section: emitted iff the list is non-empty. -/
def competenciesSection (ui : UserInfo) : List Para :=
  if ui.core_competencies.isEmpty then []
  else add_paragraph "CORE COMPETENCIES" true ::
    ui.core_competencies.map (fun c => add_paragraph ("• " ++ c) false)

/-- The four paragraphs emitted for one experience entry. -/
def experienceBlock (exp : Experience) : List Para :=
  [add_paragraph (exp.title ++ ", " ++ exp.company ++ ", " ++ exp.location ++
      " (" ++ exp.dates ++ ")") true,
    add_paragraph ("Skills: " ++ exp.skills) false,
    add_paragraph ("Actions: " ++ exp.actions) false,
    add_paragraph ("Results: " ++ exp.results) false]

/-- Professional-experience section: emitted iff the list is non-empty. -/
def experienceSection (ui : UserInfo) : List Para :=
  if ui.experience.isEmpty then []
  else add_paragraph "PROFESSIONAL EXPERIENCE" true ::
    (ui.experience.map experienceBlock).flatten

/-- Education section: emitted iff the list is non-empty. -/
def educationSection (ui : UserInfo) : List Para :=
  if ui.education.isEmpty then []
  else add_paragraph "EDUCATION" true ::
    ui.education.map (fun e => add_paragraph
      (e.degree ++ ", " ++ e.institution ++ ", " ++ e.location) false)

/-- Professional-development section: emitted iff the list is non-empty. -/
def developmentSection (ui : UserInfo) : List Para :=
  if ui.professional_development.isEmpty then []
  else add_paragraph "PROFESSIONAL DEVELOPMENT" true ::
    ui.professional_development.map (fun d => add_paragraph ("• " ++ d) false)

/-- Additional-skills section: emitted iff the list is non-empty. -/
def additionalSkillsSection (ui : UserInfo) : List Para :=
  if ui.additional_skills.isEmpty then []
  else add_paragraph "ADDITIONAL SKILLS AND ACHIEVEMENTS" true ::
    ui.additional_skills.map (fun s => add_paragraph ("• " ++ s) false)

/-- Soft-skills section: emitted iff the list is non-empty. -/
def softSkillsSection (ui : UserInfo) : List Para :=
  if ui.soft_skills.isEmpty then []
  else add_paragraph "SOFT SKILLS" true ::
    ui.soft_skills.map (fun s => add_paragraph ("• " ++ s) false)

/-- `create_resume`: header paragraph then the optional sections in the fixed
order of the script (`job` only influences the saved file name, not the
document content). -/
def create_resume (ui : UserInfo) (job : JobPosting) : List Para :=
  resumeHeader ui ::
    (summarySection ui ++ achievementsSection ui ++ competenciesSection ui ++
      experienceSection ui ++ educationSection ui ++ developmentSection ui ++
      additionalSkillsSection ui ++ softSkillsSection ui)

/-- An apostrophe character, used in the cover-letter body text. -/
def apos : String := String.singleton (Char.ofNat 39)

/-- The part of the hardcoded cover-letter body that follows the job title. -/
def bodyTail : String :=
  ". Your company" ++ apos ++
  "s mission to provide trusted medical solutions aligns with my passion for improving patient outcomes through innovative healthcare solutions. As an RN with a deep understanding of clinical practice, particularly in wound care, I have consistently driven sales growth and built meaningful relationships with healthcare professionals.\n\nAt Baxter International, I generated $4.6M in new revenue by understanding client needs and exceeding sales targets. I am confident that my experience in advanced wound care products coupled with my consultative sales approach will allow me to drive success for your team.\n\nI am eager to bring my skills and expertise to your team and contribute to the future growth of your organization. Thank you for considering my application. I look forward to the opportunity to discuss how my background and experience align with your company" ++
  apos ++ "s goals."

/-- The hardcoded cover-letter body, instantiated only with the job title. -/
def bodyText (job : JobPosting) : String :=
  "I am excited to apply for the position of " ++ (job.title ++ bodyTail)

/-- `create_cover_letter`: salutation paragraph, body paragraph, and a single
closing paragraph holding the sign-off run and the name-and-contact run. -/
def create_cover_letter (ui : UserInfo) (job : JobPosting)
    (companyName : String) : List Para :=
  [{ runs := [plainRun ("Dear Hiring Manager at " ++ companyName)]
     alignment := none },
   { runs := [plainRun (bodyText job)], alignment := none },
   { runs := [set_font "Sincerely," "Calibri" 12 false none,
       set_font ("\n" ++ ui.name ++ "\n" ++ contactLine ui) "Calibri" 12
         false none]
     alignment := some Align.left }]

/-- A generated document, tagged by kind. -/
inductive Doc where
  | resumeDoc (ps : List Para)
  | coverDoc (ps : List Para)
  | matrixDoc (m : MatrixDoc)
  deriving DecidableEq, Repr

/-- The one failure the pipeline can hit: matching against an empty pool. -/
inductive RunError where
  | emptyEvidencePool
  deriving DecidableEq, Repr

/-- Processing of one posting inside the `process_all_jobs` loop: the resume
and the cover letter are built (and saved) first; if the matrix build then
fails, those two documents have already been produced and the error escapes. -/
def process_job (score : String → String → Nat) (ui : UserInfo)
    (job : JobPosting) : List Doc × Option RunError :=
  match create_intelligent_compatibility_matrix score ui job with
  | some m =>
    ([Doc.resumeDoc (create_resume ui job),
      Doc.coverDoc (create_cover_letter ui job job.company),
      Doc.matrixDoc m], none)
  | none =>
    ([Doc.resumeDoc (create_resume ui job),
      Doc.coverDoc (create_cover_letter ui job job.company)],
      some RunError.emptyEvidencePool)

/-- `process_all_jobs`: iterates the postings in order. The script wraps the
loop body in no exception handler, so the first matching failure propagates
out of the loop and the remaining postings are not processed; the result
collects the documents produced before the failure together with the error,
if any. -/
def process_all_jobs (score : String → String → Nat) (ui : UserInfo) :
    List JobPosting → List Doc × Option RunError
  | [] => ([], none)
  | j :: js =>
    match process_job score ui j with
    | (ds, some e) => (ds, some e)
    | (ds, none) =>
      let rest := process_all_jobs score ui js
      (ds ++ rest.1, rest.2)

/-- A trivial similarity scorer used for concrete evaluations. -/
def score0 : String → String → Nat := fun q c => if q == c then 100 else 0

/-- A profile whose evidence pool is empty (no achievements, no experience,
no additional skills). -/
def emptyPoolProfile : UserInfo :=
  { name := "N", location := "L", phone := "P", email := "E", linkedin := "K"
    summary := none, key_achievements := [], core_competencies := []
    experience := [], education := [], professional_development := []
    additional_skills := [], soft_skills := [] }

/-- A profile with a one-element evidence pool. -/
def sampleProfile : UserInfo :=
  { name := "N", location := "L", phone := "P", email := "E", linkedin := "K"
    summary := some "S", key_achievements := ["ach one"]
    core_competencies := [], experience := [], education := []
    professional_development := [], additional_skills := [], soft_skills := [] }

/-- A profile whose `summary` key is present but holds the empty string, and
whose `soft_skills` list is empty. -/
def summaryEmptyProfile : UserInfo :=
  { name := "N", location := "L", phone := "P", email := "E", linkedin := "K"
    summary := some "", key_achievements := [], core_competencies := []
    experience := [], education := [], professional_development := []
    additional_skills := [], soft_skills := [] }

/-- A posting with one responsibility. -/
def jobA : JobPosting := { title := "TA", company := "CA", responsibilities := ["ra"] }

/-- A second posting with one responsibility. -/
def jobB : JobPosting := { title := "TB", company := "CB", responsibilities := ["rb"] }

/-- A posting with no responsibilities. -/
def emptyRespJob : JobPosting :=
  { title := "TE", company := "CE", responsibilities := [] }

/-- A posting whose responsibility list repeats one string. -/
def dupJob : JobPosting :=
  { title := "TD", company := "CD", responsibilities := ["ra", "ra"] }

theorem selectBest_spec (score : String → String → Nat) (q : String)
    (cs : List String) (b : String) :
    ∀ r : String × Nat, selectBest score q (b, score q b) cs = r →
      r.2 = score q r.1 ∧
        ((r.1 = b ∧ ∀ c ∈ cs, score q c ≤ score q b) ∨
          ∃ l₁ l₂, cs = l₁ ++ r.1 :: l₂ ∧ score q b < r.2 ∧
            (∀ c ∈ l₁, score q c < r.2) ∧ ∀ c ∈ l₂, score q c ≤ r.2) := by
  induction cs generalizing b with
  | nil =>
    intro r hr
    cases hr
    exact ⟨rfl, Or.inl ⟨rfl, by simp⟩⟩
  | cons c cs ih =>
    intro r hr
    rw [selectBest, List.foldl_cons] at hr
    by_cases h : score q b < score q c
    · rw [if_pos h] at hr
      obtain ⟨h1, h2⟩ := ih c r hr
      refine ⟨h1, Or.inr ?_⟩
      rcases h2 with ⟨he, hall⟩ | ⟨l₁, l₂, heq, hlt, hl₁, hl₂⟩
      · refine ⟨[], cs, by simp [he], ?_, by simp, ?_⟩
        · rw [h1, he]; exact h
        · intro x hx
          rw [h1, he]
          exact hall x hx
      · refine ⟨c :: l₁, l₂, by simp [heq], ?_, ?_, hl₂⟩
        · exact lt_trans h hlt
        · intro x hx
          rcases List.mem_cons.mp hx with hxc | hxl
          · subst hxc; exact hlt
          · exact hl₁ x hxl
    · rw [if_neg h] at hr
      push_neg at h
      obtain ⟨h1, h2⟩ := ih b r hr
      refine ⟨h1, ?_⟩
      rcases h2 with ⟨he, hall⟩ | ⟨l₁, l₂, heq, hlt, hl₁, hl₂⟩
      · refine Or.inl ⟨he, ?_⟩
        intro x hx
        rcases List.mem_cons.mp hx with hxc | hxl
        · subst hxc; exact h
        · exact hall x hxl
      · refine Or.inr ⟨c :: l₁, l₂, by simp [heq], hlt, ?_, hl₂⟩
        intro x hx
        rcases List.mem_cons.mp hx with hxc | hxl
        · subst hxc; exact lt_of_le_of_lt h hlt
        · exact hl₁ x hxl

/-- C1: for every non-empty candidate sequence and every query, the matcher
returns a candidate that is an element of the sequence (witnessed by the
explicit split `cands = l₁ ++ best :: l₂`), its score is the similarity of
that candidate against the query, that score is maximal over all candidates,
and every candidate strictly before the returned one scores strictly less —
so the returned candidate is the first one attaining the maximum. -/
theorem find_best_match_spec (score : String → String → Nat) (query : String)
    (cands : List String) (hne : cands ≠ []) :
    ∃ best s l₁ l₂,
      extractOne score query cands = some (best, s) ∧
      find_best_match score query cands = some best ∧
      cands = l₁ ++ best :: l₂ ∧
      s = score query best ∧
      (∀ c ∈ cands, score query c ≤ s) ∧
      ∀ c ∈ l₁, score query c < s := by
  cases cands with
  | nil => exact absurd rfl hne
  | cons c cs =>
    obtain ⟨h1, h2⟩ :=
      selectBest_spec score query cs c (selectBest score query (c, score query c) cs) rfl
    set r := selectBest score query (c, score query c) cs with hrdef
    rcases h2 with ⟨he, hall⟩ | ⟨l₁, l₂, heq, hlt, hl₁, hl₂⟩
    · refine ⟨r.1, r.2, [], cs, ?_, ?_, by simp [he], h1, ?_, by simp⟩
      · rw [extractOne, ← hrdef]
      · rw [find_best_match, extractOne, ← hrdef]; rfl
      · intro x hx
        rcases List.mem_cons.mp hx with hxc | hxl
        · subst hxc; rw [h1, he]
        · rw [h1, he]; exact hall x hxl
    · refine ⟨r.1, r.2, c :: l₁, l₂, ?_, ?_, by simp [heq], h1, ?_, ?_⟩
      · rw [extractOne, ← hrdef]
      · rw [find_best_match, extractOne, ← hrdef]; rfl
      · intro x hx
        rcases List.mem_cons.mp hx with hxc | hxl
        · subst hxc; exact le_of_lt hlt
        · rw [heq] at hxl
          rcases List.mem_append.mp hxl with hx1 | hx2
          · exact le_of_lt (hl₁ x hx1)
          · rcases List.mem_cons.mp hx2 with hxr | hxl2
            · subst hxr; rw [h1]
            · exact hl₂ x hxl2
      · intro x hx
        rcases List.mem_cons.mp hx with hxc | hxl
        · subst hxc; exact hlt
        · exact hl₁ x hxl

/-- Witness for `find_best_match_spec` at a concrete scorer and input. -/
theorem find_best_match_spec_witness :
    (["alpha", "beta"] ≠ ([] : List String)) ∧
    ∃ best s l₁ l₂,
      extractOne (fun q c => if q == c then (100 : Nat) else 0) "beta"
          ["alpha", "beta"] = some (best, s) ∧
      find_best_match (fun q c => if q == c then (100 : Nat) else 0) "beta"
          ["alpha", "beta"] = some best ∧
      ["alpha", "beta"] = l₁ ++ best :: l₂ ∧
      s = (fun q c => if q == c then (100 : Nat) else 0) "beta" best ∧
      (∀ c ∈ ["alpha", "beta"],
        (fun q c => if q == c then (100 : Nat) else 0) "beta" c ≤ s) ∧
      ∀ c ∈ l₁, (fun q c => if q == c then (100 : Nat) else 0) "beta" c < s :=
  ⟨by simp,
    find_best_match_spec (fun q c => if q == c then (100 : Nat) else 0) "beta"
      ["alpha", "beta"] (by simp)⟩

theorem find_best_match_eq_some (score : String → String → Nat) (q : String)
    (pool : List String) (h : pool ≠ []) :
    find_best_match score q pool = some (find_best_matchD score q pool) := by
  cases pool with
  | nil => exact absurd rfl h
  | cons c cs => rfl

theorem find_best_match_some (score : String → String → Nat) (q b : String)
    (pool : List String) (h : find_best_match score q pool = some b) :
    find_best_matchD score q pool = b := by
  cases pool with
  | nil => simp [find_best_match, extractOne] at h
  | cons c cs =>
    rw [find_best_match_eq_some score q (c :: cs) (by simp)] at h
    exact Option.some_inj.mp h

theorem dictInsert_of_not_mem (d : List (String × String)) (k v : String)
    (h : k ∉ d.map Prod.fst) : dictInsert d k v = d ++ [(k, v)] := by
  rw [dictInsert, if_neg]
  intro hc
  rw [List.any_eq_true] at hc
  obtain ⟨p, hp, he⟩ := hc
  exact h (List.mem_map.mpr ⟨p, hp, beq_iff_eq.mp he⟩)

theorem dictInsert_keys_of_mem (d : List (String × String)) (k v : String)
    (h : k ∈ d.map Prod.fst) :
    (dictInsert d k v).map Prod.fst = d.map Prod.fst := by
  rw [dictInsert, if_pos]
  · rw [List.map_map]
    apply List.map_congr_left
    intro p hp
    by_cases hk : p.1 = k
    · simp [Function.comp, hk]
    · simp [Function.comp, hk]
  · rw [List.any_eq_true]
    obtain ⟨p, hp, he⟩ := List.mem_map.mp h
    exact ⟨p, hp, beq_iff_eq.mpr he⟩

theorem dictInsert_keys_mem_iff (d : List (String × String)) (k v x : String) :
    x ∈ (dictInsert d k v).map Prod.fst ↔ x ∈ d.map Prod.fst ∨ x = k := by
  by_cases h : k ∈ d.map Prod.fst
  · rw [dictInsert_keys_of_mem d k v h]
    constructor
    · exact fun hx => Or.inl hx
    · rintro (hx | rfl)
      · exact hx
      · exact h
  · rw [dictInsert_of_not_mem d k v h, List.map_append]
    simp

theorem dictInsert_keys_nodup (d : List (String × String)) (k v : String)
    (h : (d.map Prod.fst).Nodup) :
    ((dictInsert d k v).map Prod.fst).Nodup := by
  by_cases hk : k ∈ d.map Prod.fst
  · rw [dictInsert_keys_of_mem d k v hk]
    exact h
  · rw [dictInsert_of_not_mem d k v hk, List.map_append]
    simp [List.nodup_append, h, hk]

theorem dictInsert_values (d : List (String × String)) (k v : String)
    (P : String → String → Prop) (hd : ∀ p ∈ d, P p.1 p.2) (hkv : P k v) :
    ∀ p ∈ dictInsert d k v, P p.1 p.2 := by
  intro p hp
  rw [dictInsert] at hp
  split at hp
  · obtain ⟨q, hq, he⟩ := List.mem_map.mp hp
    by_cases hqk : q.1 = k
    · simp only [hqk, beq_self_eq_true, if_true] at he
      rw [← he]
      exact hkv
    · have hne : (q.1 == k) = false := beq_eq_false_iff_ne.mpr hqk
      simp only [hne, Bool.false_eq_true, if_false] at he
      rw [← he]
      exact hd q hq
  · rcases List.mem_append.mp hp with hpd | hpk
    · exact hd p hpd
    · simp only [List.mem_singleton] at hpk
      rw [hpk]
      exact hkv

theorem buildCompatibilityData_total (score : String → String → Nat)
    (pool : List String) (h : pool ≠ []) :
    ∀ (rs : List String) (acc : List (String × String)),
      ∃ m, buildCompatibilityData score pool rs acc = some m := by
  intro rs
  induction rs with
  | nil => intro acc; exact ⟨acc, rfl⟩
  | cons r rs ih =>
    intro acc
    rw [buildCompatibilityData, find_best_match_eq_some score r pool h,
      Option.some_bind]
    exact ih (dictInsert acc r (find_best_matchD score r pool))

theorem buildCompatibilityData_spec (score : String → String → Nat)
    (pool : List String) :
    ∀ (rs : List String) (acc m : List (String × String)),
      buildCompatibilityData score pool rs acc = some m →
      (acc.map Prod.fst).Nodup →
      (∀ p ∈ acc, p.2 = find_best_matchD score p.1 pool) →
      (m.map Prod.fst).Nodup ∧
        (∀ x, x ∈ m.map Prod.fst ↔ x ∈ acc.map Prod.fst ∨ x ∈ rs) ∧
        ∀ p ∈ m, p.2 = find_best_matchD score p.1 pool := by
  intro rs
  induction rs with
  | nil =>
    intro acc m hm hnd hval
    rw [buildCompatibilityData] at hm
    cases hm
    refine ⟨hnd, ?_, hval⟩
    simp
  | cons r rs ih =>
    intro acc m hm hnd hval
    rw [buildCompatibilityData] at hm
    cases hfb : find_best_match score r pool with
    | none => rw [hfb, Option.none_bind] at hm; cases hm
    | some b =>
      rw [hfb, Option.some_bind] at hm
      have hb : b = find_best_matchD score r pool :=
        (find_best_match_some score r b pool hfb).symm
      obtain ⟨h1, h2, h3⟩ := ih (dictInsert acc r b) m hm
        (dictInsert_keys_nodup acc r b hnd)
        (dictInsert_values acc r b
          (fun key v => v = find_best_matchD score key pool) hval hb)
      refine ⟨h1, ?_, h3⟩
      intro x
      rw [h2 x, dictInsert_keys_mem_iff]
      constructor
      · rintro ((hx | hxr) | hx)
        · exact Or.inl hx
        · rw [hxr]
          exact Or.inr (List.mem_cons_self r rs)
        · exact Or.inr (List.mem_cons_of_mem r hx)
      · rintro (hx | hx)
        · exact Or.inl (Or.inl hx)
        · rcases List.mem_cons.mp hx with hxr | hx2
          · exact Or.inl (Or.inr hxr)
          · exact Or.inr hx2

theorem buildCompatibilityData_nodup_eq (score : String → String → Nat)
    (pool : List String) (h : pool ≠ []) :
    ∀ (rs : List String) (acc : List (String × String)),
      rs.Nodup → (∀ r ∈ rs, r ∉ acc.map Prod.fst) →
      buildCompatibilityData score pool rs acc =
        some (acc ++ rs.map (fun r => (r, find_best_matchD score r pool))) := by
  intro rs
  induction rs with
  | nil =>
    intro acc _ _
    simp [buildCompatibilityData]
  | cons r rs ih =>
    intro acc hnd hfresh
    rw [buildCompatibilityData, find_best_match_eq_some score r pool h,
      Option.some_bind]
    rw [dictInsert_of_not_mem acc r _ (hfresh r (List.mem_cons_self r rs))]
    have hfresh2 : ∀ r2 ∈ rs,
        r2 ∉ (acc ++ [(r, find_best_matchD score r pool)]).map Prod.fst := by
      intro r2 hr2
      rw [List.map_append, List.mem_append]
      rintro (hr2acc | hr2r)
      · exact hfresh r2 (List.mem_cons_of_mem r hr2) hr2acc
      · simp only [List.map_cons, List.map_nil, List.mem_singleton] at hr2r
        subst hr2r
        exact (List.nodup_cons.mp hnd).1 hr2
    rw [ih (acc ++ [(r, find_best_matchD score r pool)])
      (List.Nodup.of_cons hnd) hfresh2]
    simp

/-- C9: for a non-empty evidence pool and an empty responsibility list the
matching loop is never entered: the mapping is empty, nothing fails, and the
matrix document is built with just its header row. -/
theorem matchAll_empty_responsibilities (score : String → String → Nat)
    (ui : UserInfo) (job : JobPosting) (hpool : allExperiences ui ≠ [])
    (hresp : job.responsibilities = []) :
    buildCompatibilityData score (allExperiences ui) job.responsibilities []
        = some [] ∧
    create_intelligent_compatibility_matrix score ui job =
      some (create_compatibility_matrix ui job []) ∧
    (create_compatibility_matrix ui job []).table = [headerRow] := by
  refine ⟨?_, ?_, rfl⟩
  · rw [hresp]
    rfl
  · rw [create_intelligent_compatibility_matrix, hresp]
    rfl

/-- Witness for `matchAll_empty_responsibilities` at concrete inputs. -/
theorem matchAll_empty_responsibilities_witness :
    (allExperiences sampleProfile ≠ [] ∧ emptyRespJob.responsibilities = []) ∧
    (buildCompatibilityData score0 (allExperiences sampleProfile)
        emptyRespJob.responsibilities [] = some [] ∧
      create_intelligent_compatibility_matrix score0 sampleProfile
          emptyRespJob =
        some (create_compatibility_matrix sampleProfile emptyRespJob []) ∧
      (create_compatibility_matrix sampleProfile emptyRespJob []).table =
        [headerRow]) :=
  ⟨⟨by decide, rfl⟩,
    matchAll_empty_responsibilities score0 sampleProfile emptyRespJob
      (by decide) rfl⟩

/-- C4: the evidence pool is the concatenation of the achievement strings,
the `results` string of each experience in insertion order, and the
additional-skill strings, in exactly that order; it is computed from the
profile alone, and every entry of the mapping built for a posting was
matched against that same pool. -/
theorem evidence_pool_characterization (score : String → String → Nat)
    (ui : UserInfo) (job : JobPosting) (m : List (String × String))
    (hm : buildCompatibilityData score (allExperiences ui)
        job.responsibilities [] = some m) :
    allExperiences ui = ui.key_achievements ++
        ui.experience.map (fun exp => exp.results) ++ ui.additional_skills ∧
    ∀ p ∈ m, p.2 = find_best_matchD score p.1 (allExperiences ui) :=
  ⟨rfl, (buildCompatibilityData_spec score (allExperiences ui)
      job.responsibilities [] m hm (by simp) (by simp)).2.2⟩

/-- Witness for `evidence_pool_characterization` at concrete inputs. -/
theorem evidence_pool_characterization_witness :
    buildCompatibilityData score0 (allExperiences sampleProfile)
        jobA.responsibilities [] = some [("ra", "ach one")] ∧
    (allExperiences sampleProfile = sampleProfile.key_achievements ++
        sampleProfile.experience.map (fun exp => exp.results) ++
        sampleProfile.additional_skills ∧
      ∀ p ∈ [("ra", "ach one")], p.2 =
        find_best_matchD score0 p.1 (allExperiences sampleProfile)) :=
  ⟨by decide, evidence_pool_characterization score0 sampleProfile jobA
      [("ra", "ach one")] (by decide)⟩

/-- C10: the mapping is keyed by responsibility string, so it has exactly one
entry per distinct responsibility (duplicates collapse, the stored value
being the match computed for that string), its length is the number of
distinct responsibilities — strictly fewer than the list length when
duplicates exist — and the rendered matrix has one data row per entry. -/
theorem compatibility_mapping_dedup (score : String → String → Nat)
    (ui : UserInfo) (job : JobPosting) (hpool : allExperiences ui ≠ []) :
    ∃ m, buildCompatibilityData score (allExperiences ui)
        job.responsibilities [] = some m ∧
      (m.map Prod.fst).Nodup ∧
      (∀ x, x ∈ m.map Prod.fst ↔ x ∈ job.responsibilities) ∧
      (∀ p ∈ m, find_best_match score p.1 (allExperiences ui) = some p.2) ∧
      m.length = job.responsibilities.dedup.length ∧
      (¬ job.responsibilities.Nodup →
        m.length < job.responsibilities.length) ∧
      create_intelligent_compatibility_matrix score ui job =
        some (create_compatibility_matrix ui job m) ∧
      (create_compatibility_matrix ui job m).table.length = m.length + 1 := by
  obtain ⟨m, hm⟩ := buildCompatibilityData_total score (allExperiences ui)
    hpool job.responsibilities []
  obtain ⟨h1, h2, h3⟩ := buildCompatibilityData_spec score (allExperiences ui)
    job.responsibilities [] m hm (by simp) (by simp)
  have hmem : ∀ x, x ∈ m.map Prod.fst ↔ x ∈ job.responsibilities := by
    intro x
    rw [h2 x]
    simp
  have hperm : (m.map Prod.fst).Perm job.responsibilities.dedup :=
    (List.perm_ext_iff_of_nodup h1 (List.nodup_dedup _)).mpr
      (fun x => by rw [hmem x, List.mem_dedup])
  have hlen : m.length = job.responsibilities.dedup.length := by
    rw [← List.length_map m Prod.fst]
    exact hperm.length_eq
  refine ⟨m, hm, h1, hmem, ?_, hlen, ?_, ?_, ?_⟩
  · intro p hp
    rw [h3 p hp]
    exact find_best_match_eq_some score p.1 (allExperiences ui) hpool
  · intro hnd
    have hsub := List.dedup_sublist job.responsibilities
    rw [hlen]
    rcases Nat.lt_or_ge job.responsibilities.dedup.length
        job.responsibilities.length with hlt | hge
    · exact hlt
    · exact absurd
        (List.dedup_eq_self.mp
          (hsub.eq_of_length (Nat.le_antisymm hsub.length_le hge)))
        hnd
  · rw [create_intelligent_compatibility_matrix, hm]
    rfl
  · simp [create_compatibility_matrix]

/-- Witness for `compatibility_mapping_dedup` at a posting with a duplicated
responsibility. -/
theorem compatibility_mapping_dedup_witness :
    (allExperiences sampleProfile ≠ []) ∧
    ∃ m, buildCompatibilityData score0 (allExperiences sampleProfile)
        dupJob.responsibilities [] = some m ∧
      (m.map Prod.fst).Nodup ∧
      (∀ x, x ∈ m.map Prod.fst ↔ x ∈ dupJob.responsibilities) ∧
      (∀ p ∈ m, find_best_match score0 p.1 (allExperiences sampleProfile)
        = some p.2) ∧
      m.length = dupJob.responsibilities.dedup.length ∧
      (¬ dupJob.responsibilities.Nodup →
        m.length < dupJob.responsibilities.length) ∧
      create_intelligent_compatibility_matrix score0 sampleProfile dupJob =
        some (create_compatibility_matrix sampleProfile dupJob m) ∧
      (create_compatibility_matrix sampleProfile dupJob m).table.length =
        m.length + 1 :=
  ⟨by decide,
    compatibility_mapping_dedup score0 sampleProfile dupJob (by decide)⟩

/-- C3: for a posting with distinct responsibilities and a non-empty pool,
the matrix table is the header row followed by one data row per
responsibility in posting order; it has length N + 1, the header carries the
two fixed labels, and each data row holds the responsibility verbatim in its
left cell and the matched evidence in its right cell. -/
theorem matrix_table_rows (score : String → String → Nat) (ui : UserInfo)
    (job : JobPosting) (hpool : allExperiences ui ≠ [])
    (hnd : job.responsibilities.Nodup) :
    ∃ m : MatrixDoc,
      create_intelligent_compatibility_matrix score ui job = some m ∧
      m.table = headerRow :: job.responsibilities.map
        (fun r => dataRow r (find_best_matchD score r (allExperiences ui))) ∧
      m.table.length = job.responsibilities.length + 1 ∧
      headerRow.1.runs.map Run.text = ["JOB RESPONSIBILITIES"] ∧
      headerRow.2.runs.map Run.text = ["DEMONSTRATED RESULTS"] ∧
      ∀ r b, (dataRow r b).1.runs.map Run.text = [r] ∧
        (dataRow r b).2 = resultCell b := by
  have hbd := buildCompatibilityData_nodup_eq score (allExperiences ui) hpool
    job.responsibilities [] hnd (by simp)
  refine ⟨create_compatibility_matrix ui job
      (job.responsibilities.map
        (fun r => (r, find_best_matchD score r (allExperiences ui)))),
    ?_, ?_, ?_, rfl, rfl, fun r b => ⟨rfl, rfl⟩⟩
  · rw [create_intelligent_compatibility_matrix, hbd]
    rfl
  · rw [create_compatibility_matrix]
    simp [List.map_map]
  · simp [create_compatibility_matrix]

/-- Witness for `matrix_table_rows` at concrete inputs. -/
theorem matrix_table_rows_witness :
    (allExperiences sampleProfile ≠ [] ∧ jobA.responsibilities.Nodup) ∧
    ∃ m : MatrixDoc,
      create_intelligent_compatibility_matrix score0 sampleProfile jobA
        = some m ∧
      m.table = headerRow :: jobA.responsibilities.map
        (fun r => dataRow r
          (find_best_matchD score0 r (allExperiences sampleProfile))) ∧
      m.table.length = jobA.responsibilities.length + 1 ∧
      headerRow.1.runs.map Run.text = ["JOB RESPONSIBILITIES"] ∧
      headerRow.2.runs.map Run.text = ["DEMONSTRATED RESULTS"] ∧
      ∀ r b, (dataRow r b).1.runs.map Run.text = [r] ∧
        (dataRow r b).2 = resultCell b :=
  ⟨⟨by decide, by decide⟩,
    matrix_table_rows score0 sampleProfile jobA (by decide) (by decide)⟩

theorem string_toList_append (a b : String) :
    (a ++ b).toList = a.toList ++ b.toList :=
  String.data_append a b

/-- C2 (amended): when the evidence pool is empty and the first posting has a
non-empty responsibility list, matching fails for that posting; the script
wraps the loop in no exception handler, so the failure propagates out of
`process_all_jobs`: only the first posting's resume and cover letter are
produced and no subsequent posting is processed. -/
theorem empty_pool_aborts_run (score : String → String → Nat) (ui : UserInfo)
    (j : JobPosting) (js : List JobPosting) (hpool : allExperiences ui = [])
    (hresp : j.responsibilities ≠ []) :
    process_all_jobs score ui (j :: js) =
      ([Doc.resumeDoc (create_resume ui j),
        Doc.coverDoc (create_cover_letter ui j j.company)],
        some RunError.emptyEvidencePool) := by
  have hnone : create_intelligent_compatibility_matrix score ui j = none := by
    rw [create_intelligent_compatibility_matrix, hpool]
    cases hr : j.responsibilities with
    | nil => exact absurd hr hresp
    | cons r rs => rfl
  simp [process_all_jobs, process_job, hnone]

/-- Witness for `empty_pool_aborts_run` at concrete inputs. -/
theorem empty_pool_aborts_run_witness :
    (allExperiences emptyPoolProfile = [] ∧ jobA.responsibilities ≠ []) ∧
    process_all_jobs score0 emptyPoolProfile (jobA :: [jobB]) =
      ([Doc.resumeDoc (create_resume emptyPoolProfile jobA),
        Doc.coverDoc (create_cover_letter emptyPoolProfile jobA jobA.company)],
        some RunError.emptyEvidencePool) :=
  ⟨⟨rfl, by decide⟩,
    empty_pool_aborts_run score0 emptyPoolProfile jobA [jobB] rfl (by decide)⟩

/-- C2 counterexample: with an empty evidence pool and two postings that both
have responsibilities, the run aborts on the first posting: the whole run
yields only that posting's two documents (resume and cover letter) and the
error, while the second posting — which processed on its own yields two
documents — is never reached. This refutes the claim that the orchestrator
proceeds to all subsequent postings after a per-posting failure. -/
theorem empty_pool_counterexample :
    allExperiences emptyPoolProfile = [] ∧
    jobA.responsibilities ≠ [] ∧
    jobB.responsibilities ≠ [] ∧
    (process_all_jobs score0 emptyPoolProfile [jobA, jobB]).2 =
      some RunError.emptyEvidencePool ∧
    (process_all_jobs score0 emptyPoolProfile [jobA, jobB]).1.length = 2 ∧
    (process_all_jobs score0 emptyPoolProfile [jobB]).1.length = 2 :=
  ⟨rfl, by decide, by decide, rfl, rfl, rfl⟩

/-- C5 (amended): the resume is the header followed by the eight optional
sections in fixed order; each list-backed section is omitted exactly when its
list is empty (the script treats an absent key and an empty list alike), but
the summary section is omitted exactly when the `summary` key is absent — a
present-but-empty summary still produces the summary section. -/
theorem resume_section_omission (ui : UserInfo) (job : JobPosting) :
    create_resume ui job = resumeHeader ui ::
      (summarySection ui ++ achievementsSection ui ++ competenciesSection ui ++
        experienceSection ui ++ educationSection ui ++ developmentSection ui ++
        additionalSkillsSection ui ++ softSkillsSection ui) ∧
    (summarySection ui = [] ↔ ui.summary = none) ∧
    (achievementsSection ui = [] ↔ ui.key_achievements = []) ∧
    (competenciesSection ui = [] ↔ ui.core_competencies = []) ∧
    (experienceSection ui = [] ↔ ui.experience = []) ∧
    (educationSection ui = [] ↔ ui.education = []) ∧
    (developmentSection ui = [] ↔ ui.professional_development = []) ∧
    (additionalSkillsSection ui = [] ↔ ui.additional_skills = []) ∧
    (softSkillsSection ui = [] ↔ ui.soft_skills = []) := by
  refine ⟨rfl, ?_, ?_, ?_, ?_, ?_, ?_, ?_, ?_⟩
  · cases h : ui.summary with
    | some s => simp [summarySection, h]
    | none => simp [summarySection, h]
  · by_cases h : ui.key_achievements = []
    · simp [achievementsSection, h]
    · simp [achievementsSection, List.isEmpty_iff, h]
  · by_cases h : ui.core_competencies = []
    · simp [competenciesSection, h]
    · simp [competenciesSection, List.isEmpty_iff, h]
  · by_cases h : ui.experience = []
    · simp [experienceSection, h]
    · simp [experienceSection, List.isEmpty_iff, h]
  · by_cases h : ui.education = []
    · simp [educationSection, h]
    · simp [educationSection, List.isEmpty_iff, h]
  · by_cases h : ui.professional_development = []
    · simp [developmentSection, h]
    · simp [developmentSection, List.isEmpty_iff, h]
  · by_cases h : ui.additional_skills = []
    · simp [additionalSkillsSection, h]
    · simp [additionalSkillsSection, List.isEmpty_iff, h]
  · by_cases h : ui.soft_skills = []
    · simp [softSkillsSection, h]
    · simp [softSkillsSection, List.isEmpty_iff, h]

/-- C5 counterexample: a profile whose `summary` key is present but holds the
empty string still gets a "PROFESSIONAL SUMMARY" section in its resume (the
script checks only key presence), refuting the claimed omission; its empty
`soft_skills` list does omit the "SOFT SKILLS" section. -/
theorem summary_section_counterexample :
    summaryEmptyProfile.summary = some "" ∧
    ((create_resume summaryEmptyProfile emptyRespJob).any
      (fun p => p.runs.any (fun r => r.text == "PROFESSIONAL SUMMARY")))
        = true ∧
    ((create_resume summaryEmptyProfile emptyRespJob).any
      (fun p => p.runs.any (fun r => r.text == "SOFT SKILLS"))) = false := by
  refine ⟨rfl, ?_, ?_⟩ <;> decide

/-- C6 (amended): the right-hand matrix cell renders the matched evidence as
one bulleted run per line of the evidence string — including empty and
whitespace-only lines, which yield a bare bullet — each line trimmed of
surrounding whitespace, in original line order, styled Calibri 11 white. -/
theorem result_cell_bullets (result : String) :
    (resultCell result).runs.map Run.text =
      (splitLines result).map (fun line => "• " ++ strip line ++ "\n") ∧
    (resultCell result).runs.length = (splitLines result).length ∧
    ∀ r ∈ (resultCell result).runs,
      r.font = some "Calibri" ∧ r.size = some 11 ∧ r.bold = false := by
  refine ⟨?_, ?_, ?_⟩
  · simp [resultCell, set_font, List.map_map, Function.comp]
  · simp [resultCell]
  · intro r hr
    simp only [resultCell, List.mem_map] at hr
    obtain ⟨line, hline, he⟩ := hr
    rw [← he]
    exact ⟨rfl, rfl, rfl⟩

/-- C6 counterexample: an evidence string with a whitespace-only middle line
gets three bullets — the middle one a bare bullet — while the claim predicts
only two (one per non-empty trimmed line). -/
theorem result_cell_counterexample :
    (resultCell "a\n \nb").runs.map Run.text = ["• a\n", "• \n", "• b\n"] ∧
    (resultCell "a\n \nb").runs.length = 3 ∧
    (((splitLines "a\n \nb").filter (fun l => strip l != "")).length) = 2 := by
  refine ⟨?_, ?_, ?_⟩ <;> decide

/-- C7: the cover letter is exactly three paragraphs: a salutation addressed
to the company name, a body that embeds the job title into a fixed template
containing exactly one dollar-quantified achievement (so at most one
quantified achievement appears, whatever the profile), and a single closing
paragraph in which the sign-off, the candidate's name and the contact line
are separated by single newlines — no blank line between them. -/
theorem cover_letter_structure (ui : UserInfo) (job : JobPosting)
    (companyName : String) (htitle : job.title.toList.count '$' = 0) :
    create_cover_letter ui job companyName =
      [{ runs := [plainRun ("Dear Hiring Manager at " ++ companyName)],
         alignment := none },
       { runs := [plainRun (bodyText job)], alignment := none },
       { runs := [set_font "Sincerely," "Calibri" 12 false none,
           set_font ("\n" ++ ui.name ++ "\n" ++ contactLine ui) "Calibri" 12
             false none],
         alignment := some Align.left }] ∧
    (create_cover_letter ui job companyName).length = 3 ∧
    bodyText job =
      "I am excited to apply for the position of " ++
        (job.title ++ bodyTail) ∧
    (bodyText job).toList.count '$' = 1 := by
  refine ⟨rfl, rfl, rfl, ?_⟩
  have h1 : (bodyText job).toList =
      ("I am excited to apply for the position of ").toList ++
        (job.title.toList ++ bodyTail.toList) := by
    rw [bodyText, string_toList_append, string_toList_append]
  rw [h1, List.count_append, List.count_append, htitle]
  have hlit :
      ("I am excited to apply for the position of ").toList.count '$' = 0 := by
    decide
  have htail : bodyTail.toList.count '$' = 1 := by decide
  rw [hlit, htail]

/-- Witness for `cover_letter_structure` at concrete inputs. -/
theorem cover_letter_structure_witness :
    (jobA.title.toList.count '$' = 0) ∧
    (create_cover_letter sampleProfile jobA "Acme" =
      [{ runs := [plainRun ("Dear Hiring Manager at " ++ "Acme")],
         alignment := none },
       { runs := [plainRun (bodyText jobA)], alignment := none },
       { runs := [set_font "Sincerely," "Calibri" 12 false none,
           set_font ("\n" ++ sampleProfile.name ++ "\n" ++
             contactLine sampleProfile) "Calibri" 12 false none],
         alignment := some Align.left }] ∧
    (create_cover_letter sampleProfile jobA "Acme").length = 3 ∧
    bodyText jobA =
      "I am excited to apply for the position of " ++
        (jobA.title ++ bodyTail) ∧
    (bodyText jobA).toList.count '$' = 1) :=
  ⟨by decide, cover_letter_structure sampleProfile jobA "Acme" (by decide)⟩

/-- C8: the pipeline is deterministic: every builder, the matcher and the
orchestrator are pure functions of their explicit inputs in this embedding
(the source uses no randomness and no mutable global state that influences
document content), so two runs on identical inputs yield identical results. -/
theorem pipeline_deterministic (score : String → String → Nat)
    (ui : UserInfo) (job : JobPosting) (companyName : String)
    (data : List (String × String)) (q : String) (cands : List String)
    (jobs : List JobPosting) :
    create_resume ui job = create_resume ui job ∧
    create_cover_letter ui job companyName =
      create_cover_letter ui job companyName ∧
    create_compatibility_matrix ui job data =
      create_compatibility_matrix ui job data ∧
    create_intelligent_compatibility_matrix score ui job =
      create_intelligent_compatibility_matrix score ui job ∧
    find_best_match score q cands = find_best_match score q cands ∧
    process_all_jobs score ui jobs = process_all_jobs score ui jobs :=
  ⟨rfl, rfl, rfl, rfl, rfl, rfl⟩

end ResumeGen
